import Mathlib

/-!
Verification of the LipSick Gradio front end (`app.py`).

The file embeds the pure/observable behaviour of the four top-level
functions of `app.py` — `get_versioned_filename`, `compute_crop_radius_stats`,
`process_files` and `visualize_reference_frames` — as Lean functions.
The filesystem is modelled as the list of paths that currently exist;
external collaborators (the inference subprocess, the crop-radius statistics
module and the frame extractor) are modelled as explicit parameters or as
recorded events, since their code is not part of the embedded file.
-/

namespace LipSick

/-! ### Injectivity of decimal rendering of naturals

`app.py` builds versioned filenames with the f-string formatting of an
integer counter (`Nat.repr` on the Lean side).  To know that probing
`base(1)ext, base(2)ext, …` eventually leaves any finite set of existing
paths, we prove that decimal rendering is injective, via a decimal
valuation that inverts `Nat.toDigits 10`.
-/

/-- Numeric value of a decimal digit character. -/
def charVal (c : Char) : Nat := c.toNat - Char.toNat '0'

/-- Decimal valuation of a character list: left fold accumulating digits. -/
def val10 (l : List Char) : Nat := l.foldl (fun acc c => 10 * acc + charVal c) 0

theorem charVal_digitChar : ∀ d < 10, charVal (Nat.digitChar d) = d := by decide

theorem val10_append (a b : List Char) :
    val10 (a ++ b) = (b.foldl (fun acc c => 10 * acc + charVal c) (val10 a)) := by
  simp [val10, List.foldl_append]

theorem toDigitsCore_eq (n : Nat) : ∀ (fuel : Nat) (ds : List Char), n < fuel →
    Nat.toDigitsCore 10 fuel n ds = Nat.toDigits 10 n ++ ds := by
  induction n using Nat.strong_induction_on with
  | _ n ih =>
    intro fuel ds h
    obtain ⟨f, rfl⟩ : ∃ f, fuel = f + 1 := ⟨fuel - 1, by omega⟩
    show Nat.toDigitsCore 10 (f + 1) n ds = Nat.toDigitsCore 10 (n + 1) n [] ++ ds
    simp only [Nat.toDigitsCore]
    by_cases h0 : n / 10 = 0
    · simp [h0]
    · have hn : 0 < n := by omega
      have hlt : n / 10 < n := Nat.div_lt_self hn (by omega)
      simp only [h0, if_false]
      rw [ih (n / 10) hlt f _ (by omega), ih (n / 10) hlt n _ hlt]
      simp

theorem val10_toDigits (n : Nat) : val10 (Nat.toDigits 10 n) = n := by
  induction n using Nat.strong_induction_on with
  | _ n ih =>
    show val10 (Nat.toDigitsCore 10 (n + 1) n []) = n
    simp only [Nat.toDigitsCore]
    by_cases h0 : n / 10 = 0
    · have hn : n < 10 := by omega
      simp [h0, val10, Nat.mod_eq_of_lt hn, charVal_digitChar n hn]
    · have hn : 0 < n := by omega
      have hlt : n / 10 < n := Nat.div_lt_self hn (by omega)
      simp only [h0, if_false]
      rw [toDigitsCore_eq (n / 10) n _ hlt, val10_append, ih (n / 10) hlt]
      have := charVal_digitChar (n % 10) (by omega)
      simp [this]
      omega

theorem nat_repr_injective : Function.Injective Nat.repr := by
  intro m n h
  have h2 : Nat.toDigits 10 m = Nat.toDigits 10 n := congrArg String.data h
  have h3 := congrArg val10 h2
  rwa [val10_toDigits, val10_toDigits] at h3

/-! ### POSIX path helpers used by `app.py`

`os.path.splitext`, `os.path.basename` and `os.path.join`, translated from
CPython's `posixpath`/`genericpath` for the two-argument forms the script
uses.  Paths are plain strings; indices follow Python's `str.rfind`
convention of `-1` for "absent". -/

/-- Python `str.rfind` for a single character: last index of `c` in `cs`, or `-1`. -/
def rfindChar (cs : List Char) (c : Char) : Int :=
  (List.range cs.length).foldl
    (fun acc i => if cs.get? i = some c then (i : Int) else acc) (-1)

/-- `os.path.splitext` (POSIX): split at the last dot after the last slash,
unless the basename up to that dot consists only of dots. -/
def os_path_splitext (p : String) : String × String :=
  let cs := p.data
  let sepIndex := rfindChar cs '/'
  let dotIndex := rfindChar cs '.'
  if sepIndex < dotIndex then
    if (List.range cs.length).any
        (fun i => decide (sepIndex < (i : Int)) && decide ((i : Int) < dotIndex)
          && (cs.get? i != some '.')) then
      (String.mk (cs.take dotIndex.toNat), String.mk (cs.drop dotIndex.toNat))
    else (p, "")
  else (p, "")

/-- `os.path.basename` (POSIX): everything after the last slash. -/
def os_path_basename (p : String) : String :=
  String.mk (p.data.drop (rfindChar p.data '/' + 1).toNat)

/-- Python `s.startswith(c)` for a one-character `c`. -/
def startsWithChar (s : String) (c : Char) : Bool :=
  match s.data with
  | [] => false
  | d :: _ => d == c

/-- Python `s.endswith(c)` for a one-character `c`. -/
def endsWithChar (s : String) (c : Char) : Bool :=
  match s.data.getLast? with
  | none => false
  | some d => d == c

/-- `os.path.join` (POSIX) for two components. -/
def os_path_join (a b : String) : String :=
  if startsWithChar b '/' then b
  else if a == "" || endsWithChar a '/' then a ++ b
  else a ++ "/" ++ b

/-! ### The Filename Versioner (`get_versioned_filename`)

The filesystem is the list of paths that exist.  `os.path.exists` is a
read-only probe: it reports membership and returns the filesystem
unchanged; the state is threaded explicitly so that the frame property of
the versioner is expressible. -/

/-- The candidate path built by the loop body of `get_versioned_filename`:
the f-string `{base}({counter}){ext}`. -/
def mkVersioned (base ext : String) (n : Nat) : String :=
  base ++ "(" ++ Nat.repr n ++ ")" ++ ext

theorem mkVersioned_injective (base ext : String) :
    Function.Injective (mkVersioned base ext) := by
  intro m n h
  apply nat_repr_injective
  have hd := congrArg String.data h
  simp only [mkVersioned, String.data_append, List.append_assoc] at hd
  have h1 := List.append_cancel_left (List.append_cancel_left hd)
  exact String.ext (List.append_cancel_right h1)

/-- Any finite filesystem misses some candidate `base(n)ext` with `n ≥ c`. -/
theorem exists_versioned_free (fs : List String) (base ext : String) (c : Nat) :
    ∃ k : Nat, mkVersioned base ext (c + k) ∉ fs := by
  by_contra hall
  push_neg at hall
  have hinj : Function.Injective fun k : Nat => mkVersioned base ext (c + k) := by
    intro a b hab
    have := mkVersioned_injective base ext hab
    omega
  exact (List.finite_toSet fs).not_infinite
    (Set.infinite_of_injective_forall_mem hinj hall)

/-- `os.path.exists` on the filesystem model: a read-only probe. -/
def os_path_exists (fs : List String) (p : String) : Bool × List String :=
  (decide (p ∈ fs), fs)

/-- Termination measure for the probing loop: distance to the next free
candidate (`0` when the current candidate is already free). -/
def loopMeasure (fs : List String) (base ext : String) (counter : Nat)
    (versioned : String) : Nat :=
  if versioned ∈ fs then Nat.find (exists_versioned_free fs base ext counter) + 1 else 0

theorem loopMeasure_decreases (fs : List String) (base ext : String) (c : Nat)
    (v : String) (hv : v ∈ fs) :
    loopMeasure fs base ext (c + 1) (mkVersioned base ext c) <
      loopMeasure fs base ext c v := by
  simp only [loopMeasure, if_pos hv]
  by_cases hmk : mkVersioned base ext c ∈ fs
  · simp only [if_pos hmk]
    have hK := Nat.find_spec (exists_versioned_free fs base ext c)
    set K := Nat.find (exists_versioned_free fs base ext c) with hKdef
    have hKpos : K ≠ 0 := by
      intro h0
      rw [h0, Nat.add_zero] at hK
      exact hK hmk
    have hle : Nat.find (exists_versioned_free fs base ext (c + 1)) ≤ K - 1 := by
      apply Nat.find_le
      have harg : (c + 1) + (K - 1) = c + K := by omega
      rw [harg]
      exact hK
    omega
  · simp [if_neg hmk]

/-- The `while os.path.exists(versioned_filepath)` loop of
`get_versioned_filename`, threading the (unchanged) filesystem state. -/
def versionLoop (fs : List String) (base ext : String) (counter : Nat)
    (versioned : String) : String × List String :=
  let e := os_path_exists fs versioned
  if e.1 then versionLoop e.2 base ext (counter + 1) (mkVersioned base ext counter)
  else (versioned, e.2)
termination_by loopMeasure fs base ext counter versioned
decreasing_by
  rename_i h
  have hv : versioned ∈ fs := by
    have h2 : (os_path_exists fs versioned).1 = true := h
    simpa [os_path_exists] using h2
  exact loopMeasure_decreases fs base ext counter versioned hv

/-- `get_versioned_filename(filepath)`: split into base and extension, then
probe `filepath`, `base(1)ext`, `base(2)ext`, … until a free path is found. -/
def get_versioned_filename (fs : List String) (filepath : String) :
    String × List String :=
  let be := os_path_splitext filepath
  versionLoop fs be.1 be.2 1 filepath

theorem versionLoop_eq (fs : List String) (base ext : String) (counter : Nat)
    (versioned : String) :
    versionLoop fs base ext counter versioned =
      if versioned ∈ fs then
        versionLoop fs base ext (counter + 1) (mkVersioned base ext counter)
      else (versioned, fs) := by
  rw [versionLoop]
  simp [os_path_exists]

/-- Joint characterization of the probing loop: the filesystem passes through
unchanged, the returned path is free, a free start is returned as is, and a
taken start yields the first free candidate `base(counter + k)ext`. -/
theorem versionLoop_spec (fs : List String) (base ext : String) :
    ∀ (counter : Nat) (versioned : String),
      (versionLoop fs base ext counter versioned).2 = fs ∧
      (versionLoop fs base ext counter versioned).1 ∉ fs ∧
      (versioned ∉ fs → (versionLoop fs base ext counter versioned).1 = versioned) ∧
      (versioned ∈ fs → ∃ k : Nat,
        (versionLoop fs base ext counter versioned).1 = mkVersioned base ext (counter + k) ∧
        (∀ j : Nat, j < k → mkVersioned base ext (counter + j) ∈ fs)) := by
  intro counter versioned
  generalize hμ : loopMeasure fs base ext counter versioned = μ
  induction μ using Nat.strong_induction_on generalizing counter versioned with
  | _ μ ih =>
    rw [versionLoop_eq]
    by_cases hv : versioned ∈ fs
    · have hdec := loopMeasure_decreases fs base ext counter versioned hv
      rw [hμ] at hdec
      have IH := ih _ hdec (counter + 1) (mkVersioned base ext counter) rfl
      simp only [if_pos hv]
      refine ⟨IH.1, IH.2.1, fun hcontra => (hcontra hv).elim, fun _ => ?_⟩
      by_cases hmk : mkVersioned base ext counter ∈ fs
      · obtain ⟨k, hk1, hk2⟩ := IH.2.2.2 hmk
        rw [show counter + 1 + k = counter + (k + 1) from by omega] at hk1
        refine ⟨k + 1, hk1, fun j hj => ?_⟩
        match j with
        | 0 => simpa using hmk
        | j' + 1 =>
          rw [show counter + (j' + 1) = counter + 1 + j' from by omega]
          exact hk2 j' (by omega)
      · have hres := IH.2.2.1 hmk
        refine ⟨0, ?_, fun j hj => absurd hj (Nat.not_lt_zero j)⟩
        rw [Nat.add_zero]
        exact hres
    · simp [if_neg hv, hv]

/-! ### `compute_crop_radius_stats`

The statistics collaborator `calculate_crop_radius_statistics` lives in
`compute_crop_radius.py`, which is not part of the embedded file.
Modelled from the spec: a function from a video path to a 4-tuple whose
last element is the "most common" crop radius; it is passed in as a
parameter.  The result pairs the returned value (either the user-facing
message or the scalar) with the path the collaborator was invoked on
(`none` when it was never invoked). -/

def compute_crop_radius_stats (stats : String → Int × Int × Int × Int)
    (video_file : Option String) : (String ⊕ Int) × Option String :=
  match video_file with
  | none => (Sum.inl "Please upload a video file first.", none)
  | some name =>
    let r := stats name
    (Sum.inr r.2.2.2, some name)

/-! ### `process_files`

The five reference-index slots are optional integers; the filesystem (for
the Filename Versioner) and the exit code of the external inference
process are explicit parameters.  The result records the two returned
strings — in slot order of the UI wiring `outputs=[status_text,
output_video]` — together with the command line handed to
`subprocess.run` (`none` when `subprocess.run` is never reached). -/

structure ProcessResult where
  status : String
  output : String
  invoked : Option (List String)
deriving DecidableEq

/-- Line 30: `[index for index in [...] if index is not None]`. -/
def collectedRefIndices (r1 r2 r3 r4 r5 : Option Int) : List Int :=
  [r1, r2, r3, r4, r5].filterMap id

/-- Lines 31–32: add 5 to every index when no custom crop radius is supplied
(`None` or `0`). -/
def offsetRefIndices (custom_crop_radius : Option Int) (l : List Int) : List Int :=
  if custom_crop_radius = none ∨ custom_crop_radius = some 0 then
    l.map (fun index => index + 5)
  else l

/-- Line 33: comma-join exactly five indices, else the empty string. -/
def refIndicesStr (l : List Int) : String :=
  if l.length = 5 then String.intercalate "," (l.map toString) else ""

/-- Python truthiness of the `driving_audio` argument: `not driving_audio`
holds for `None` and for the empty string. -/
def drivingAudioMissing : Option String → Bool
  | none => true
  | some s => s == ""

/-- Lines 43–44: base name of the source video, then the output name
`LipSick_Blend.mp4` under auto-mask and `{base_name}_lipsick.mp4` otherwise. -/
def outputVideoName (source_video : String) (auto_mask : Bool) : String :=
  let base_name := (os_path_splitext (os_path_basename source_video)).1
  if auto_mask then "LipSick_Blend.mp4" else base_name ++ "_lipsick.mp4"

def process_files (fs : List String) (exit_code : Int) (source_video : String)
    (driving_audio : Option String) (custom_crop_radius : Option Int := none)
    (auto_mask : Bool := true)
    (ref_index_1 ref_index_2 ref_index_3 ref_index_4 ref_index_5 : Option Int := none)
    (activate_custom_frames : Bool := false) : ProcessResult :=
  let ref_indices :=
    collectedRefIndices ref_index_1 ref_index_2 ref_index_3 ref_index_4 ref_index_5
  let ref_indices := offsetRefIndices custom_crop_radius ref_indices
  let ref_indices_str := refIndicesStr ref_indices
  if drivingAudioMissing driving_audio then
    { status := "", output := "Error: Audio file is required.", invoked := none }
  else
    let pretrained_model_path := "./asserts/pretrained_lipsick.pth"
    let deepspeech_model_path := "./asserts/output_graph.pb"
    let res_video_dir := "./asserts/inference_result"
    let output_video_name := outputVideoName source_video auto_mask
    let output_video_path := os_path_join res_video_dir output_video_name
    let output_video_path := (get_versioned_filename fs output_video_path).1
    let cmd := ["python", "inference.py",
      "--source_video_path", source_video,
      "--driving_audio_path", driving_audio.getD "",
      "--pretrained_lipsick_path", pretrained_model_path,
      "--deepspeech_model_path", deepspeech_model_path,
      "--res_video_dir", res_video_dir,
      "--custom_reference_frames", ref_indices_str]
    let cmd :=
      match custom_crop_radius with
      | some r => cmd ++ ["--custom_crop_radius", toString r]
      | none => cmd
    let cmd := if activate_custom_frames then cmd ++ ["--activate_custom_frames"] else cmd
    let cmd := if auto_mask then cmd ++ ["--auto_mask"] else cmd
    if exit_code = 0 then
      { status := "", output := output_video_path, invoked := some cmd }
    else
      { status := "An error occurred during processing. Please check the console log.",
        output := "", invoked := some cmd }

/-! ### `visualize_reference_frames`

The collaborators (`delete_existing_reference_frames`,
`extract_and_crop_frame`, `cv2.imread`, `overlay_text`, `cv2.imwrite`)
live outside the embedded file; their invocations are recorded as events,
in program order.  Modelled from the spec: `extract_and_crop_frame` writes
the frame to a deterministic temporary path and returns it, so it is
abstracted as a function `extractPath` from video path and frame index to
that path. -/

inductive VisEvent where
  | deleteExisting
  | extractFrame (videoPath : String) (frameIndex : Int) (cropToFace : Bool)
  | imreadFile (path : String)
  | overlayText (frameIndex : Int) (faceDetected : Bool)
  | imwriteFile (path : String)
deriving DecidableEq

def visualize_reference_frames (extractPath : String → Int → String)
    (video_path : String) (r1 r2 r3 r4 r5 : Option Int) :
    List String × List VisEvent :=
  let ref_indices := [r1, r2, r3, r4, r5]
  ref_indices.foldl
    (fun acc index =>
      match index with
      | none => acc
      | some i =>
        let frame_path := extractPath video_path i
        (acc.1 ++ [frame_path],
         acc.2 ++ [VisEvent.extractFrame video_path i false,
                   VisEvent.imreadFile frame_path,
                   VisEvent.overlayText i true,
                   VisEvent.imwriteFile frame_path]))
    ([], [VisEvent.deleteExisting])

/-! ### Derived facts shared by the claims -/

theorem drivingAudioMissing_some_false (audio : String) (ha : audio ≠ "") :
    drivingAudioMissing (some audio) = false := by
  simpa [drivingAudioMissing] using ha

theorem get_versioned_filename_fst_not_mem (fs : List String) (p : String) :
    (get_versioned_filename fs p).1 ∉ fs :=
  (versionLoop_spec fs (os_path_splitext p).1 (os_path_splitext p).2 1 p).2.1

/-- The full command line `process_files` hands to `subprocess.run` once
validation has passed, as one flat list. -/
def cmdList (source_video audio : String) (ccr : Option Int)
    (am : Bool) (r1 r2 r3 r4 r5 : Option Int) (acf : Bool) : List String :=
  ["python", "inference.py",
    "--source_video_path", source_video,
    "--driving_audio_path", audio,
    "--pretrained_lipsick_path", "./asserts/pretrained_lipsick.pth",
    "--deepspeech_model_path", "./asserts/output_graph.pb",
    "--res_video_dir", "./asserts/inference_result",
    "--custom_reference_frames",
    refIndicesStr (offsetRefIndices ccr (collectedRefIndices r1 r2 r3 r4 r5))]
  ++ (match ccr with
      | some r => ["--custom_crop_radius", toString r]
      | none => [])
  ++ (if acf then ["--activate_custom_frames"] else [])
  ++ (if am then ["--auto_mask"] else [])

theorem process_files_invoked (fs : List String) (exit_code : Int)
    (source_video audio : String) (ccr : Option Int) (am : Bool)
    (r1 r2 r3 r4 r5 : Option Int) (acf : Bool) (ha : audio ≠ "") :
    (process_files fs exit_code source_video (some audio) ccr am
        r1 r2 r3 r4 r5 acf).invoked
      = some (cmdList source_video audio ccr am r1 r2 r3 r4 r5 acf) := by
  have hmiss := drivingAudioMissing_some_false audio ha
  cases ccr <;> by_cases hec : exit_code = 0 <;> by_cases hacf : acf = true <;>
    by_cases ham : am = true <;>
      simp_all [process_files, cmdList]

theorem process_files_output_eq (fs : List String) (exit_code : Int)
    (source_video audio : String) (ccr : Option Int) (am : Bool)
    (r1 r2 r3 r4 r5 : Option Int) (acf : Bool) (ha : audio ≠ "")
    (hec : exit_code = 0) :
    (process_files fs exit_code source_video (some audio) ccr am
        r1 r2 r3 r4 r5 acf).output
      = (get_versioned_filename fs (os_path_join "./asserts/inference_result"
          (outputVideoName source_video am))).1 := by
  have hmiss := drivingAudioMissing_some_false audio ha
  simp [process_files, hmiss, hec]


/-! ### The claims -/

/-- Claim C1, behaviour of the code at the failing input: calling
`process_files` with `driving_audio` absent (`None` or the empty string)
does return without reaching `subprocess.run` (`invoked = none`), but it
places the error message "Error: Audio file is required." in the
output-path slot and the empty string in the status slot — the swap of the
two return positions used by every other return of the function. -/
theorem spec_C1_code_eval :
    process_files [] 0 "clip.mp4" none none true none none none none none false
      = { status := "", output := "Error: Audio file is required.", invoked := none }
  ∧ process_files [] 0 "clip.mp4" (some "") none true none none none none none false
      = { status := "", output := "Error: Audio file is required.", invoked := none } :=
  ⟨by decide, by decide⟩

/-- Claim C2: the +5 offset is applied to the collected reference indices
exactly when `custom_crop_radius` is `None` or `0`; five indices 1..5 with
no crop radius join to "6,7,8,9,10", and with crop radius 50 to
"1,2,3,4,5". -/
theorem spec_C2 (custom_crop_radius : Option Int) (l : List Int) :
    ((custom_crop_radius = none ∨ custom_crop_radius = some 0) →
      offsetRefIndices custom_crop_radius l = l.map (fun index => index + 5))
  ∧ (custom_crop_radius ≠ none → custom_crop_radius ≠ some 0 →
      offsetRefIndices custom_crop_radius l = l)
  ∧ refIndicesStr (offsetRefIndices none
      (collectedRefIndices (some 1) (some 2) (some 3) (some 4) (some 5)))
      = "6,7,8,9,10"
  ∧ refIndicesStr (offsetRefIndices (some 50)
      (collectedRefIndices (some 1) (some 2) (some 3) (some 4) (some 5)))
      = "1,2,3,4,5" := by
  refine ⟨fun h => ?_, fun h1 h2 => ?_, by decide, by decide⟩
  · simp only [offsetRefIndices, if_pos h]
  · have hn : ¬(custom_crop_radius = none ∨ custom_crop_radius = some 0) := by
      tauto
    simp only [offsetRefIndices, if_neg hn]

theorem spec_C2_witness :
    offsetRefIndices none [1, 2] = [6, 7]
  ∧ offsetRefIndices (some 7) [1, 2] = [1, 2] :=
  ⟨by simpa using (spec_C2 none [1, 2]).1 (Or.inl rfl),
   (spec_C2 (some 7) [1, 2]).2.1 (by decide) (by decide)⟩

/-- Claim C3: at `custom_crop_radius = 0` the +5 offset is applied (zero
counts as "not supplied" in the offset test) and yet the built command
line still contains the pair `--custom_crop_radius` `0` (the flag test
only checks for `None`). -/
theorem spec_C3 (fs : List String) (exit_code : Int) (source_video audio : String)
    (am : Bool) (r1 r2 r3 r4 r5 : Option Int) (acf : Bool) (ha : audio ≠ "") :
    offsetRefIndices (some 0) (collectedRefIndices r1 r2 r3 r4 r5)
      = (collectedRefIndices r1 r2 r3 r4 r5).map (fun index => index + 5)
  ∧ ∃ c s t : List String,
      (process_files fs exit_code source_video (some audio) (some 0) am
          r1 r2 r3 r4 r5 acf).invoked = some c
      ∧ c = s ++ ["--custom_crop_radius", "0"] ++ t := by
  constructor
  · simp [offsetRefIndices]
  · refine ⟨cmdList source_video audio (some 0) am r1 r2 r3 r4 r5 acf,
      ["python", "inference.py",
        "--source_video_path", source_video,
        "--driving_audio_path", audio,
        "--pretrained_lipsick_path", "./asserts/pretrained_lipsick.pth",
        "--deepspeech_model_path", "./asserts/output_graph.pb",
        "--res_video_dir", "./asserts/inference_result",
        "--custom_reference_frames",
        refIndicesStr (offsetRefIndices (some 0) (collectedRefIndices r1 r2 r3 r4 r5))],
      (if acf then ["--activate_custom_frames"] else [])
        ++ (if am then ["--auto_mask"] else []),
      process_files_invoked fs exit_code source_video audio (some 0) am
        r1 r2 r3 r4 r5 acf ha, ?_⟩
    simp [cmdList]
    decide

theorem spec_C3_witness :
    offsetRefIndices (some 0) (collectedRefIndices none none none none none)
      = (collectedRefIndices none none none none none).map (fun index => index + 5)
  ∧ ∃ c s t : List String,
      (process_files [] 0 "clip.mp4" (some "a.wav") (some 0) true
          none none none none none false).invoked = some c
      ∧ c = s ++ ["--custom_crop_radius", "0"] ++ t :=
  spec_C3 [] 0 "clip.mp4" "a.wav" true none none none none none false (by decide)

/-- Claim C4: the non-`None` reference indices are collected in slot order
(the collected list is exactly the sub-list of present slots); the joined
string is the comma-join when exactly five indices are present and the
empty string otherwise; slots `[3, None, 7, None, None]` collect to
`[3, 7]` and produce the empty string whatever the crop radius. -/
theorem spec_C4 (r1 r2 r3 r4 r5 : Option Int) (ccr : Option Int) :
    (collectedRefIndices r1 r2 r3 r4 r5).map some
      = [r1, r2, r3, r4, r5].filter (fun o => o.isSome)
  ∧ (∀ l : List Int, l.length = 5 →
      refIndicesStr l = String.intercalate "," (l.map toString))
  ∧ (∀ l : List Int, l.length ≠ 5 → refIndicesStr l = "")
  ∧ collectedRefIndices (some 3) none (some 7) none none = [3, 7]
  ∧ refIndicesStr (offsetRefIndices ccr
      (collectedRefIndices (some 3) none (some 7) none none)) = "" := by
  refine ⟨?_, fun l hl => by simp [refIndicesStr, hl],
    fun l hl => by simp [refIndicesStr, hl], by decide, ?_⟩
  · cases r1 <;> cases r2 <;> cases r3 <;> cases r4 <;> cases r5 <;>
      simp [collectedRefIndices]
  · unfold offsetRefIndices
    split <;> decide

theorem spec_C4_witness :
    refIndicesStr [1, 2, 3, 4, 5] = String.intercalate "," ([1, 2, 3, 4, 5].map toString)
  ∧ refIndicesStr [3, 7] = "" :=
  ⟨(spec_C4 none none none none none none).2.1 [1, 2, 3, 4, 5] (by decide),
   (spec_C4 none none none none none none).2.2.1 [3, 7] (by decide)⟩

/-- Claim C5: `get_versioned_filename` returns a non-existing candidate
unchanged; for an existing candidate it returns `base(n)ext`, where
`base`/`ext` split the candidate and `n` is the smallest positive integer
whose candidate does not exist; it is a deterministic function of the
unchanged directory, so repeated calls return the same path. -/
theorem spec_C5 (fs : List String) (filepath : String) :
    (filepath ∉ fs → (get_versioned_filename fs filepath).1 = filepath)
  ∧ (filepath ∈ fs → ∃ n : Nat, 1 ≤ n
      ∧ (get_versioned_filename fs filepath).1
          = mkVersioned (os_path_splitext filepath).1 (os_path_splitext filepath).2 n
      ∧ mkVersioned (os_path_splitext filepath).1 (os_path_splitext filepath).2 n ∉ fs
      ∧ ∀ m : Nat, 1 ≤ m → m < n →
          mkVersioned (os_path_splitext filepath).1 (os_path_splitext filepath).2 m ∈ fs)
  ∧ (get_versioned_filename fs filepath).1 = (get_versioned_filename fs filepath).1 := by
  have hs := versionLoop_spec fs (os_path_splitext filepath).1
    (os_path_splitext filepath).2 1 filepath
  refine ⟨fun h => hs.2.2.1 h, fun h => ?_, rfl⟩
  obtain ⟨k, hk1, hk2⟩ := hs.2.2.2 h
  have hfree := hs.2.1
  rw [hk1] at hfree
  refine ⟨1 + k, by omega, hk1, hfree, ?_⟩
  intro m hm1 hmn
  have hm : m = 1 + (m - 1) := by omega
  rw [hm]
  exact hk2 (m - 1) (by omega)

theorem spec_C5_witness :
    (get_versioned_filename [] "a.mp4").1 = "a.mp4"
  ∧ (∃ n : Nat, 1 ≤ n
      ∧ (get_versioned_filename ["a.mp4"] "a.mp4").1
          = mkVersioned (os_path_splitext "a.mp4").1 (os_path_splitext "a.mp4").2 n
      ∧ mkVersioned (os_path_splitext "a.mp4").1 (os_path_splitext "a.mp4").2 n ∉ ["a.mp4"]
      ∧ ∀ m : Nat, 1 ≤ m → m < n →
          mkVersioned (os_path_splitext "a.mp4").1 (os_path_splitext "a.mp4").2 m ∈ ["a.mp4"]) :=
  ⟨(spec_C5 [] "a.mp4").1 (by decide), (spec_C5 ["a.mp4"] "a.mp4").2.1 (by decide)⟩


/-- Claim C6: with driving audio present, the output video name is
`LipSick_Blend.mp4` under auto-mask and `{source base name}_lipsick.mp4`
otherwise (`clip_lipsick.mp4` for `clip.mp4`), and the output path is the
Filename Versioner applied to the join of the results directory with that
name, hence never an existing path. -/
theorem spec_C6 (fs : List String) (exit_code : Int) (source_video audio : String)
    (ccr : Option Int) (am : Bool) (r1 r2 r3 r4 r5 : Option Int) (acf : Bool)
    (ha : audio ≠ "") (hec : exit_code = 0) :
    (process_files fs exit_code source_video (some audio) ccr am
        r1 r2 r3 r4 r5 acf).output
      = (get_versioned_filename fs (os_path_join "./asserts/inference_result"
          (outputVideoName source_video am))).1
  ∧ (process_files fs exit_code source_video (some audio) ccr am
        r1 r2 r3 r4 r5 acf).output ∉ fs
  ∧ outputVideoName source_video true = "LipSick_Blend.mp4"
  ∧ outputVideoName "clip.mp4" false = "clip_lipsick.mp4" := by
  have hout := process_files_output_eq fs exit_code source_video audio ccr am
    r1 r2 r3 r4 r5 acf ha hec
  refine ⟨hout, ?_, rfl, by decide⟩
  rw [hout]
  exact get_versioned_filename_fst_not_mem fs _

theorem spec_C6_witness :
    (process_files [] 0 "clip.mp4" (some "a.wav") none false
        none none none none none false).output
      = (get_versioned_filename [] (os_path_join "./asserts/inference_result"
          (outputVideoName "clip.mp4" false))).1
  ∧ (process_files [] 0 "clip.mp4" (some "a.wav") none false
        none none none none none false).output ∉ ([] : List String)
  ∧ outputVideoName "clip.mp4" true = "LipSick_Blend.mp4"
  ∧ outputVideoName "clip.mp4" false = "clip_lipsick.mp4" :=
  spec_C6 [] 0 "clip.mp4" "a.wav" none false none none none none none false
    (by decide) rfl

/-- Claim C7: once the external invocation is reached (audio present), exit
code 0 yields an empty status and the versioned output path, and a
non-zero exit code yields the generic failure message and an empty output
path. -/
theorem spec_C7 (fs : List String) (exit_code : Int) (source_video audio : String)
    (ccr : Option Int) (am : Bool) (r1 r2 r3 r4 r5 : Option Int) (acf : Bool)
    (ha : audio ≠ "") :
    (process_files fs exit_code source_video (some audio) ccr am
        r1 r2 r3 r4 r5 acf).invoked.isSome = true
  ∧ (exit_code = 0 →
      (process_files fs exit_code source_video (some audio) ccr am
          r1 r2 r3 r4 r5 acf).status = ""
      ∧ (process_files fs exit_code source_video (some audio) ccr am
          r1 r2 r3 r4 r5 acf).output
        = (get_versioned_filename fs (os_path_join "./asserts/inference_result"
            (outputVideoName source_video am))).1)
  ∧ (exit_code ≠ 0 →
      (process_files fs exit_code source_video (some audio) ccr am
          r1 r2 r3 r4 r5 acf).status
        = "An error occurred during processing. Please check the console log."
      ∧ (process_files fs exit_code source_video (some audio) ccr am
          r1 r2 r3 r4 r5 acf).output = "") := by
  have hmiss := drivingAudioMissing_some_false audio ha
  refine ⟨?_, fun hec => ⟨?_, process_files_output_eq fs exit_code source_video
    audio ccr am r1 r2 r3 r4 r5 acf ha hec⟩, fun hec => ⟨?_, ?_⟩⟩
  · rw [process_files_invoked fs exit_code source_video audio ccr am
      r1 r2 r3 r4 r5 acf ha]
    rfl
  · simp [process_files, hmiss, *]
  · simp [process_files, hmiss, *]
  · simp [process_files, hmiss, *]

theorem spec_C7_witness :
    ((process_files [] 0 "v.mp4" (some "a.wav") none true
        none none none none none false).status = ""
      ∧ (process_files [] 0 "v.mp4" (some "a.wav") none true
          none none none none none false).output
        = (get_versioned_filename [] (os_path_join "./asserts/inference_result"
            (outputVideoName "v.mp4" true))).1)
  ∧ ((process_files [] 1 "v.mp4" (some "a.wav") none true
        none none none none none false).status
      = "An error occurred during processing. Please check the console log."
      ∧ (process_files [] 1 "v.mp4" (some "a.wav") none true
          none none none none none false).output = "") :=
  ⟨(spec_C7 [] 0 "v.mp4" "a.wav" none true none none none none none false
      (by decide)).2.1 rfl,
   (spec_C7 [] 1 "v.mp4" "a.wav" none true none none none none none false
      (by decide)).2.2 (by decide)⟩

/-- Claim C8: `visualize_reference_frames` deletes prior reference-frame
artifacts first, then for each non-`None` index in slot order extracts the
frame without face-cropping, reads it, annotates it with its index with a
face assumed detected, overwrites it in place, and collects its path; the
returned list has exactly one path per non-`None` index, in slot order. -/
theorem spec_C8 (extractPath : String → Int → String) (video_path : String)
    (r1 r2 r3 r4 r5 : Option Int) :
    (visualize_reference_frames extractPath video_path r1 r2 r3 r4 r5).1
      = (collectedRefIndices r1 r2 r3 r4 r5).map (fun i => extractPath video_path i)
  ∧ (visualize_reference_frames extractPath video_path r1 r2 r3 r4 r5).2
      = VisEvent.deleteExisting ::
        (collectedRefIndices r1 r2 r3 r4 r5).flatMap (fun i =>
          [VisEvent.extractFrame video_path i false,
           VisEvent.imreadFile (extractPath video_path i),
           VisEvent.overlayText i true,
           VisEvent.imwriteFile (extractPath video_path i)])
  ∧ (visualize_reference_frames extractPath video_path (some 0) (some 2)
      none none none).1 = [extractPath video_path 0, extractPath video_path 2] := by
  refine ⟨?_, ?_, by simp [visualize_reference_frames]⟩
  · cases r1 <;> cases r2 <;> cases r3 <;> cases r4 <;> cases r5 <;>
      simp [visualize_reference_frames, collectedRefIndices]
  · cases r1 <;> cases r2 <;> cases r3 <;> cases r4 <;> cases r5 <;>
      simp [visualize_reference_frames, collectedRefIndices]

/-- Claim C9: `compute_crop_radius_stats` answers "Please upload a video
file first." without invoking the statistics collaborator when no file is
given; otherwise it invokes the collaborator on the file path and returns
exactly the fourth component of the 4-tuple. -/
theorem spec_C9 (stats : String → Int × Int × Int × Int) (video_file : Option String) :
    (video_file = none →
      compute_crop_radius_stats stats video_file
        = (Sum.inl "Please upload a video file first.", none))
  ∧ (∀ p : String, video_file = some p →
      compute_crop_radius_stats stats video_file
        = (Sum.inr (stats p).2.2.2, some p)) := by
  constructor
  · rintro rfl
    rfl
  · rintro p rfl
    rfl

theorem spec_C9_witness :
    compute_crop_radius_stats (fun _ => ((1 : Int), (2 : Int), (3 : Int), (7 : Int))) none
      = (Sum.inl "Please upload a video file first.", none)
  ∧ compute_crop_radius_stats (fun _ => ((1 : Int), (2 : Int), (3 : Int), (7 : Int)))
      (some "v.mp4") = (Sum.inr 7, some "v.mp4") :=
  ⟨(spec_C9 _ none).1 rfl,
   by simpa using (spec_C9 (fun _ => ((1 : Int), (2 : Int), (3 : Int), (7 : Int)))
     (some "v.mp4")).2 "v.mp4" rfl⟩

/-- Claim C10: `get_versioned_filename` leaves the filesystem unchanged —
its only filesystem interaction is the read-only existence probe, and the
threaded filesystem state comes back equal to the input. -/
theorem spec_C10 (fs : List String) (filepath : String) :
    (get_versioned_filename fs filepath).2 = fs :=
  (versionLoop_spec fs (os_path_splitext filepath).1
    (os_path_splitext filepath).2 1 filepath).1

end LipSick
